import Mathlib

/-!
Shallow embedding of the bigFive lexical personality analyser
(phughesmcr/bigfive).  The repository bundles several versions of the
library: `src/index.js` holds v2.0.1 (lines 40-191), v0.3.0 (lines
218-362) and v1.0.0-rc.2 (lines 402-542), and `src/unnamed/part_000`
holds v1.0.0-rc.3.  Numbers are modelled as `Rat` (the JS code only
adds, multiplies and divides finite float values), JS objects iterated
with `for..in` as association lists in insertion order, and fallible
paths as `Option`.  Version-specific code lives in the namespaces
`V030`, `RC3` (part_000) and `V201`; the few helpers that v1/v2 import
from the external `lex-helpers` package, which is not part of this
repository, live in `LexHelpers` and are modelled from the spec.
-/

namespace BigFive

/-- A lexicon match: the `[word, count, weight]` triple pushed by
v0.3.0's `getMatches` (src/index.js lines 286-294) and the Match record
of the later versions. -/
structure Match where
  term : String
  count : Nat
  weight : Rat
deriving Repr, DecidableEq

/-- A record with one field per trait category, as the `ocean` objects of
the source. -/
structure Ocean (α : Type) where
  O : α
  C : α
  E : α
  A : α
  N : α
deriving Repr, DecidableEq

/-- One trait category of the lexicon: the JS object
`{term: weight, ...}` iterated in insertion order
(src/index.js line 284, `data = lexicon[category]`). -/
abbrev Category := List (String × Rat)

/-- The full lexicon: `category → (term → weight)` for O, C, E, A, N. -/
abbrev Lexicon := Ocean Category

/-- A JS number as used for the `min`/`max` weight bounds: finite, or
`Number.NEGATIVE_INFINITY` / `Number.POSITIVE_INFINITY`. -/
inductive XRat
  | negInf
  | fin (q : Rat)
  | posInf
deriving Repr, DecidableEq

/-- The value of the `nGrams` option: a boolean or an array of window
sizes (v2.0.1 defaults it to `[2, 3]`, the rc versions to `true`). -/
inductive NGramsVal
  | bool (b : Bool)
  | sizes (l : List Nat)
deriving Repr, DecidableEq

/-- The options object of v2.0.1 / rc.3 before defaulting; `none` is a
field the caller left `undefined`. -/
structure Opts where
  encoding : Option String
  max : Option XRat
  min : Option XRat
  nGrams : Option NGramsVal
  output : Option String
  places : Option Nat
  sortBy : Option String
  wcGrams : Option Bool
deriving Repr, DecidableEq

/-- JS `a || d` for an option slot: the default is taken when the slot is
`undefined` or holds a falsy value. -/
def jsOr {α : Type} (v : Option α) (falsy : α → Bool) (dflt : α) : α :=
  match v with
  | none => dflt
  | some x => if falsy x then dflt else x

/-- JS falsiness of a string: only `""` is falsy. -/
def strFalsy (s : String) : Bool := s = ""

/-- JS falsiness of a number: only `0` (and `NaN`, not modelled) is
falsy; the infinities are truthy. -/
def numFalsy : XRat → Bool
  | XRat.fin q => q = 0
  | _ => false

/-- JS falsiness of the `nGrams` value: `false` is falsy, every array
(even an empty one) is truthy. -/
def ngFalsy : NGramsVal → Bool
  | NGramsVal.bool b => !b
  | NGramsVal.sizes _ => false

/-- JS falsiness of the `places` number: only `0` is falsy. -/
def natFalsy (n : Nat) : Bool := n = 0

/-- JS `String.prototype.toLowerCase` (ASCII fragment), as called at
src/index.js line 82: lower-case every character. -/
def jsToLower (s : String) : String := ⟨s.data.map Char.toLower⟩

/-- JS `String.prototype.trim`, as called at src/index.js line 82: strip
leading and trailing whitespace. -/
def jsTrim (s : String) : String :=
  ⟨((s.data.dropWhile Char.isWhitespace).reverse.dropWhile
      Char.isWhitespace).reverse⟩

/-- Round half away from zero (spec §4.3 rounding semantics). -/
def roundHalfAway (x : Rat) : Int :=
  if x < 0 then -(Int.floor (-x + 1/2)) else Int.floor (x + 1/2)

/-- Round to `places` decimal digits, half away from zero. -/
def roundPlaces (places : Nat) (x : Rat) : Rat :=
  ((roundHalfAway (x * 10 ^ places) : Rat)) / 10 ^ places

/-- JS truthiness of an option slot as a whole: falsy when the field is
absent (`undefined`) or holds a falsy value. -/
def optFalsy {α : Type} (v : Option α) (falsy : α → Bool) : Bool :=
  match v with
  | none => true
  | some x => falsy x

/-- A caller options object that sets `min: 0` and leaves every other
field absent. -/
def minZeroOpts : Opts :=
  ⟨none, none, some (XRat.fin 0), none, none, none, none, none⟩

/-- A caller options object that sets `min: 1` and leaves every other
field absent. -/
def minOneOpts : Opts :=
  ⟨none, none, some (XRat.fin 1), none, none, none, none, none⟩

/-- A caller options object with every field explicitly set to a falsy
value. -/
def falsyOpts : Opts :=
  ⟨some "", some (XRat.fin 0), some (XRat.fin 0),
   some (NGramsVal.bool false), some "", some 0, some "", some false⟩

/-- A caller options object with every field absent. -/
def emptyOpts : Opts := ⟨none, none, none, none, none, none, none, none⟩

end BigFive

namespace BigFive.V030

/-- v0.3.0 `getMatches`, one category (src/index.js lines 286-294): for
each `(word, weight)` of the category, if `arr.indexOf(word) > -1` push
`[word, arr.indexesOf(word).length, weight]`. -/
def getMatchesCat (arr : List String) (data : Category) : List Match :=
  data.filterMap (fun p =>
    if arr.contains p.1 then some ⟨p.1, arr.count p.1, p.2⟩ else none)

/-- v0.3.0 `getMatches` over the whole lexicon
(src/index.js lines 274-298). -/
def getMatches (arr : List String) (lex : Lexicon) : Ocean (List Match) :=
  ⟨getMatchesCat arr lex.O, getMatchesCat arr lex.C, getMatchesCat arr lex.E,
   getMatchesCat arr lex.A, getMatchesCat arr lex.N⟩

/-- v0.3.0 `calcLex` (src/index.js lines 306-316): sum of `obj[word][2]`
(the weight) over the match list, starting from `lex = 0`. -/
def calcLex (obj : List Match) : Rat :=
  obj.foldl (fun lex m => lex + m.weight) 0

/-- v0.3.0 score assembly (src/index.js lines 339-344):
`ocean.X = calcLex(matches.X)` for each category. -/
def scores (tokens : List String) (lex : Lexicon) : Ocean Rat :=
  let ms := getMatches tokens lex
  ⟨calcLex ms.O, calcLex ms.C, calcLex ms.E, calcLex ms.A, calcLex ms.N⟩

end BigFive.V030

namespace BigFive.LexHelpers

/-- `w < min`, the lower-bound exclusion test of spec §4.2. -/
def belowMin (min : XRat) (w : Rat) : Bool :=
  match min with
  | XRat.negInf => false
  | XRat.fin m => w < m
  | XRat.posInf => true

/-- `w > max`, the upper-bound exclusion test of spec §4.2. -/
def aboveMax (max : XRat) (w : Rat) : Bool :=
  match max with
  | XRat.negInf => true
  | XRat.fin m => m < w
  | XRat.posInf => false

/-- Modelled from the spec: `getMatches` of the external `lex-helpers`
package (the Lexicon Matcher called at src/index.js line 139 and
src/unnamed/part_000 line 161) is not part of this repository.  Per
§4.2: for every `(term, weight)` pair of a category, if the term exists
in the TokenMultiset and the weight is within the `[min, max]` bounds
(excluded when `weight < min` or `weight > max`), emit a Match with
`count = TokenMultiset[term]`.  The TokenMultiset is represented by the
token list itself, with counts read off by `List.count`. -/
def getMatches (tokens : List String) (data : Category) (min max : XRat) :
    List Match :=
  data.filterMap (fun p =>
    if tokens.contains p.1 && !belowMin min p.2 && !aboveMax max p.2 then
      some ⟨p.1, tokens.count p.1, p.2⟩
    else none)

/-- Modelled from the spec: `calcLex` of the external `lex-helpers`
package (the Scorer, spec §4.3) is not part of this repository — only
its caller `doLex` (src/unnamed/part_000 lines 92-100) is.  Per §4.3:
`frequency` gives `intercept + Σ((count / wordcount) × weight)` with the
zero-wordcount guard collapsing the score to the intercept; `binary`
gives `intercept + Σ weight`; an unrecognized encoding falls back to
`binary`; the result is rounded half away from zero to `places` decimal
digits.  The `percent` coverage mode is exercised by no claim and is
not modelled. -/
def calcLex (ms : List Match) (int : Rat) (places : Nat)
    (encoding : String) (wordcount : Nat) : Rat :=
  let lex : Rat :=
    if encoding = "frequency" then
      if wordcount = 0 then int
      else ms.foldl
        (fun a m => a + ((m.count : Rat) / (wordcount : Rat)) * m.weight) int
    else
      ms.foldl (fun a m => a + m.weight) int
  roundPlaces places lex

end BigFive.LexHelpers

namespace BigFive.RC3

/-- v1.0.0-rc.3 `doLex` (src/unnamed/part_000 lines 92-100):
`values.X = calcLex(matches.X, int, places, encoding, wordcount)` for
each category. -/
def doLex (ms : Ocean (List Match)) (int : Rat) (places : Nat)
    (encoding : String) (wordcount : Nat) : Ocean Rat :=
  ⟨LexHelpers.calcLex ms.O int places encoding wordcount,
   LexHelpers.calcLex ms.C int places encoding wordcount,
   LexHelpers.calcLex ms.E int places encoding wordcount,
   LexHelpers.calcLex ms.A int places encoding wordcount,
   LexHelpers.calcLex ms.N int places encoding wordcount⟩

/-- v1.0.0-rc.3 option defaulting (src/unnamed/part_000 lines 131-138):
`opts.x = opts.x || default` for every field, with defaults
`binary`, `+∞`, `-∞`, `true`, `ocean`, `9`, `freq`, `false`. -/
def applyDefaults (o : Opts) : Opts where
  encoding := some (jsOr o.encoding strFalsy "binary")
  max := some (jsOr o.max numFalsy XRat.posInf)
  min := some (jsOr o.min numFalsy XRat.negInf)
  nGrams := some (jsOr o.nGrams ngFalsy (NGramsVal.bool true))
  output := some (jsOr o.output strFalsy "ocean")
  places := some (jsOr o.places natFalsy 9)
  sortBy := some (jsOr o.sortBy strFalsy "freq")
  wcGrams := some (jsOr o.wcGrams (fun b => !b) false)

/-- The `values` section of the `full` output shape
(src/unnamed/part_000 line 166): `doLex(matches, 0, places, encoding,
wordcount)`. -/
def fullValues (ms : Ocean (List Match)) (places : Nat)
    (encoding : String) (wordcount : Nat) : Ocean Rat :=
  doLex ms 0 places encoding wordcount

/-- The whole result of the `ocean` (score-only) output shape
(src/unnamed/part_000 line 176): `doLex(matches, 0, places, encoding,
wordcount)`. -/
def oceanOutput (ms : Ocean (List Match)) (places : Nat)
    (encoding : String) (wordcount : Nat) : Ocean Rat :=
  doLex ms 0 places encoding wordcount

end BigFive.RC3

namespace BigFive.V201

/-- v2.0.1 option defaulting (src/index.js lines 97-104): identical to
rc.3's except that `nGrams` defaults to the array `[2, 3]` and `output`
to `'lex'`. -/
def applyDefaults (o : Opts) : Opts where
  encoding := some (jsOr o.encoding strFalsy "binary")
  max := some (jsOr o.max numFalsy XRat.posInf)
  min := some (jsOr o.min numFalsy XRat.negInf)
  nGrams := some (jsOr o.nGrams ngFalsy (NGramsVal.sizes [2, 3]))
  output := some (jsOr o.output strFalsy "lex")
  places := some (jsOr o.places natFalsy 9)
  sortBy := some (jsOr o.sortBy strFalsy "freq")
  wcGrams := some (jsOr o.wcGrams (fun b => !b) false)

/-- v2.0.1 n-gram augmentation (src/index.js lines 119-133) for an
array-valued `opts.nGrams`.  The `if (opts.nGrams && wordcount > 2)`
guard reduces to `wordcount > 2` (a JS array is always truthy), and
`async.each` with a synchronous iteratee body runs the body once per
element in array order; each window `n` with `n < wordcount` appends
`arr2string(simplengrams(str, n))`, every other window is skipped with a
console warning.  `ngramsOf n` abstracts the external
`arr2string(simplengrams(str, n))` for the fixed input string. -/
def addNGrams (ngramsOf : Nat → List String) (sizes : List Nat)
    (wordcount : Nat) (tokens : List String) : List String :=
  if 2 < wordcount then
    sizes.foldl
      (fun toks n => if n < wordcount then toks ++ ngramsOf n else toks)
      tokens
  else tokens

/-- v2.0.1 wordcount recalculation (src/index.js lines 117 and 135): the
wordcount is captured before n-grams are appended and only replaced by
the augmented token count when `wcGrams` is set. -/
def finalWordcount (wcGrams : Bool) (wordcount : Nat)
    (augmented : List String) : Nat :=
  if wcGrams then augmented.length else wordcount

/-- The entry guards of v2.0.1 `bigFive` (src/index.js lines 74-82 and
110-115): `if (!str) return null` (a JS string is falsy exactly when
empty), then lower-case + trim normalisation, then tokenization with
`if (!tokens) return null`.  `tokenize` models the external
happynodetokenizer collaborator — `none` is its "no tokens" signal —
and `rest` abstracts the remainder of the pipeline, which is reached
only when tokens exist. -/
def bigFiveTop (tokenize : String → Option (List String))
    (rest : String → List String → Ocean Rat) (str : String) :
    Option (Ocean Rat) :=
  if str = "" then none
  else
    match tokenize (jsTrim (jsToLower str)) with
    | none => none
    | some toks => some (rest (jsTrim (jsToLower str)) toks)

/-- A JS value as passed to `doLex`, to record the v2.0.1 call sites. -/
inductive JSVal
  | num (q : Rat)
  | str (s : String)
  | matchesObj (m : Ocean (List Match))
  | intsObj (O C E A N : Rat)
  | undef
deriving Repr, DecidableEq

/-- The argument list of the v2.0.1 `full` branch call
`doLex(matches, ints, places, encoding, wordcount)` (src/index.js line
158), where `ints = {O: 0, C: 0, E: 0, A: 0, N: 0}` (lines 141-147). -/
def fullDoLexArgs (ms : Ocean (List Match)) (places : Rat)
    (encoding : String) (wordcount : Rat) : List JSVal :=
  [JSVal.matchesObj ms, JSVal.intsObj 0 0 0 0 0, JSVal.num places,
   JSVal.str encoding, JSVal.num wordcount]

/-- The argument list of the v2.0.1 `lex` branch call
`doLex(matches, places, encoding, wordcount)` (src/index.js line 174);
JS pads the missing fifth argument with `undefined`. -/
def lexDoLexArgs (ms : Ocean (List Match)) (places : Rat)
    (encoding : String) (wordcount : Rat) : List JSVal :=
  [JSVal.matchesObj ms, JSVal.num places, JSVal.str encoding,
   JSVal.num wordcount, JSVal.undef]

end BigFive.V201

namespace BigFive

/-- Sum of the weights of the category terms present in the token list:
the "distinct matched terms, each contributing once" reference value. -/
def binarySum (data : Category) (tokens : List String) : Rat :=
  ((data.filter (fun p => tokens.contains p.1)).map (fun p => p.2)).sum

/-- Sum of `(count / wordcount) × weight` over a match list: the
`frequency` reference value. -/
def freqSum (ms : List Match) (wc : Nat) : Rat :=
  (ms.map (fun m => ((m.count : Rat) / (wc : Rat)) * m.weight)).sum

end BigFive

namespace BigFive

/-- Folding `fun a x => a + f x` from `init` yields `init` plus the sum
of the mapped list. -/
theorem foldl_add_map {α : Type} (f : α → Rat) (l : List α) (init : Rat) :
    l.foldl (fun a x => a + f x) init = init + (l.map f).sum := by
  induction l generalizing init with
  | nil => simp
  | cons x xs ih => simp [ih]; ring

/-- The v0.3.0 per-category score is the sum of the weights of the
distinct matched lexicon terms. -/
theorem calcLex_getMatchesCat (tokens : List String) (data : Category) :
    V030.calcLex (V030.getMatchesCat tokens data) = binarySum data tokens := by
  unfold V030.calcLex
  rw [foldl_add_map Match.weight, zero_add]
  unfold binarySum V030.getMatchesCat
  induction data with
  | nil => simp
  | cons p ps ih =>
    rw [List.filterMap_cons, List.filter_cons]
    by_cases h : p.1 ∈ tokens
    · rw [if_pos (show tokens.contains p.1 = true by simpa using h),
        if_pos (show tokens.contains p.1 = true by simpa using h)]
      simp only [List.map_cons, List.sum_cons, ih]
    · rw [if_neg (show ¬tokens.contains p.1 = true by simpa using h),
        if_neg (show ¬tokens.contains p.1 = true by simpa using h)]
      exact ih

/-- `binarySum` only looks at membership, so repeating the token list
leaves it unchanged. -/
theorem binarySum_self_append (data : Category) (tokens : List String) :
    binarySum data (tokens ++ tokens) = binarySum data tokens := by
  unfold binarySum
  have hf : data.filter (fun p => (tokens ++ tokens).contains p.1)
      = data.filter (fun p => tokens.contains p.1) := by
    apply List.filter_congr
    intro p _
    by_cases h : p.1 ∈ tokens <;> simp [h]
  rw [hf]

/-- v0.3.0 `getMatches` only reads membership and occurrence counts, both
of which are invariant under permutation of the token list. -/
theorem getMatchesCat_perm (t1 t2 : List String) (data : Category)
    (h : t1.Perm t2) :
    V030.getMatchesCat t1 data = V030.getMatchesCat t2 data := by
  unfold V030.getMatchesCat
  induction data with
  | nil => rfl
  | cons p ps ih =>
    have hn : t1.count p.1 = t2.count p.1 := h.count_eq p.1
    rw [List.filterMap_cons, List.filterMap_cons]
    by_cases hm : p.1 ∈ t1
    · have hm2 : p.1 ∈ t2 := h.mem_iff.mp hm
      rw [if_pos (show t1.contains p.1 = true by simpa using hm),
        if_pos (show t2.contains p.1 = true by simpa using hm2), hn, ih]
    · have hm2 : p.1 ∉ t2 := fun x => hm (h.mem_iff.mpr x)
      rw [if_neg (show ¬t1.contains p.1 = true by simpa using hm),
        if_neg (show ¬t2.contains p.1 = true by simpa using hm2), ih]

/-- C1.  With `binary` scoring, each trait score is the intercept
(0) plus the sum of the lexicon weights of the distinct matched terms of
that category: the v0.3.0 scores equal `0 + binarySum` per category,
repeating every occurrence leaves them unchanged, and the configured
Scorer at encoding `binary` adds each match's weight exactly once to the
intercept (rounding per spec §4.3). -/
theorem binary_score_sums_distinct_weights (tokens : List String)
    (lex : Lexicon) (h : tokens ≠ []) :
    (V030.scores tokens lex
      = ⟨0 + binarySum lex.O tokens, 0 + binarySum lex.C tokens,
         0 + binarySum lex.E tokens, 0 + binarySum lex.A tokens,
         0 + binarySum lex.N tokens⟩)
    ∧ V030.scores (tokens ++ tokens) lex = V030.scores tokens lex
    ∧ ∀ (ms : List Match) (int : Rat) (places wc : Nat),
        LexHelpers.calcLex ms int places "binary" wc
          = roundPlaces places (int + (ms.map Match.weight).sum) := by
  refine ⟨?_, ?_, ?_⟩
  · simp only [V030.scores, V030.getMatches, calcLex_getMatchesCat, zero_add]
  · simp only [V030.scores, V030.getMatches, calcLex_getMatchesCat,
      binarySum_self_append]
  · intro ms int places wc
    have hne : ("binary" : String) ≠ "frequency" := by decide
    simp [LexHelpers.calcLex, hne, foldl_add_map Match.weight]

/-- C1 witness: the spec §8 scenario, evaluated concretely. -/
theorem binary_score_sums_distinct_weights_witness :
    V030.scores
        ["the", "capital", "city", "has", "a", "capital", "note", "note", "note"]
        ⟨[("capital", -1), ("note", -(1/2))], [], [], [], []⟩
      = ⟨0 + binarySum [("capital", -1), ("note", -(1/2))]
            ["the", "capital", "city", "has", "a", "capital", "note", "note", "note"],
         0 + binarySum []
            ["the", "capital", "city", "has", "a", "capital", "note", "note", "note"],
         0 + binarySum []
            ["the", "capital", "city", "has", "a", "capital", "note", "note", "note"],
         0 + binarySum []
            ["the", "capital", "city", "has", "a", "capital", "note", "note", "note"],
         0 + binarySum []
            ["the", "capital", "city", "has", "a", "capital", "note", "note", "note"]⟩ :=
  (binary_score_sums_distinct_weights
    ["the", "capital", "city", "has", "a", "capital", "note", "note", "note"]
    ⟨[("capital", -1), ("note", -(1/2))], [], [], [], []⟩ (by simp)).1

/-- C7.  Every emitted Match carries `count` equal to the number of
occurrences of its term in the token multiset, and that count is at
least 1 — both for the in-repository v0.3.0 matcher and for the bounded
Lexicon Matcher. -/
theorem match_count_invariant (arr : List String) (data : Category) :
    (∀ m ∈ V030.getMatchesCat arr data,
        m.count = arr.count m.term ∧ 1 ≤ m.count)
    ∧ ∀ (min max : XRat), ∀ m ∈ LexHelpers.getMatches arr data min max,
        m.count = arr.count m.term ∧ 1 ≤ m.count := by
  constructor
  · intro m hm
    unfold V030.getMatchesCat at hm
    obtain ⟨p, hp, hsome⟩ := List.mem_filterMap.mp hm
    split at hsome
    case isTrue hcond =>
      obtain rfl := Option.some.inj hsome
      refine ⟨rfl, ?_⟩
      have : p.1 ∈ arr := by simpa using hcond
      simpa using List.count_pos_iff.mpr this
    case isFalse => simp at hsome
  · intro min max m hm
    unfold LexHelpers.getMatches at hm
    obtain ⟨p, hp, hsome⟩ := List.mem_filterMap.mp hm
    split at hsome
    case isTrue hcond =>
      obtain rfl := Option.some.inj hsome
      refine ⟨rfl, ?_⟩
      simp only [Bool.and_eq_true] at hcond
      have : p.1 ∈ arr := by simpa using hcond.1.1
      simpa using List.count_pos_iff.mpr this
    case isFalse => simp at hsome

/-- C7 witness: a concrete token list and category. -/
theorem match_count_invariant_witness :
    (Match.mk "note" 3 1).count
        = List.count "note" ["note", "x", "note", "note"]
      ∧ 1 ≤ (Match.mk "note" 3 1).count :=
  (match_count_invariant ["note", "x", "note", "note"] [("note", 1)]).1
    ⟨"note", 3, 1⟩ (by simp [V030.getMatchesCat])

/-- C8.  Permuting the token sequence (same multiset) leaves both the
v0.3.0 match object and every binary trait score unchanged. -/
theorem binary_score_perm_invariant (t1 t2 : List String) (lex : Lexicon)
    (h : t1.Perm t2) :
    V030.getMatches t1 lex = V030.getMatches t2 lex
    ∧ V030.scores t1 lex = V030.scores t2 lex := by
  have hO := getMatchesCat_perm t1 t2 lex.O h
  have hC := getMatchesCat_perm t1 t2 lex.C h
  have hE := getMatchesCat_perm t1 t2 lex.E h
  have hA := getMatchesCat_perm t1 t2 lex.A h
  have hN := getMatchesCat_perm t1 t2 lex.N h
  constructor
  · simp [V030.getMatches, hO, hC, hE, hA, hN]
  · simp [V030.scores, V030.getMatches, hO, hC, hE, hA, hN]

/-- C8 witness: a concrete permutation of a two-token input. -/
theorem binary_score_perm_invariant_witness :
    V030.scores ["b", "a"] ⟨[("a", 2), ("b", 3)], [], [], [], []⟩
      = V030.scores ["a", "b"] ⟨[("a", 2), ("b", 3)], [], [], [], []⟩ :=
  (binary_score_perm_invariant ["b", "a"] ["a", "b"]
    ⟨[("a", 2), ("b", 3)], [], [], [], []⟩ (by decide)).2

/-- `roundPlaces` fixes zero. -/
theorem roundPlaces_zero (p : Nat) : roundPlaces p 0 = 0 := by
  norm_num [roundPlaces, roundHalfAway]

/-- C2.  Under `frequency` encoding, `doLex` gives each trait the
intercept plus `Σ (count / wordcount) × weight` over that category's
matches (rounded per spec §4.3), and with a zero wordcount each trait
score collapses to the intercept — the division is guarded and the
computation is total. -/
theorem frequency_score_formula (ms : Ocean (List Match)) (int : Rat)
    (places wc : Nat) (hint : roundPlaces places int = int) :
    (wc ≠ 0 → RC3.doLex ms int places "frequency" wc
        = ⟨roundPlaces places (int + freqSum ms.O wc),
           roundPlaces places (int + freqSum ms.C wc),
           roundPlaces places (int + freqSum ms.E wc),
           roundPlaces places (int + freqSum ms.A wc),
           roundPlaces places (int + freqSum ms.N wc)⟩)
    ∧ (wc = 0 → RC3.doLex ms int places "frequency" wc
        = ⟨int, int, int, int, int⟩) := by
  constructor
  · intro hwc
    simp [RC3.doLex, LexHelpers.calcLex, hwc, freqSum,
      foldl_add_map (fun m : Match => ((m.count : Rat) / (wc : Rat)) * m.weight)]
  · intro hwc
    simp [RC3.doLex, LexHelpers.calcLex, hwc, hint]

/-- C2 witness: the zero-wordcount guard at a concrete match object. -/
theorem frequency_score_formula_witness :
    RC3.doLex ⟨[⟨"note", 2, -(1/2)⟩], [], [], [], []⟩ 0 2 "frequency" 0
      = ⟨0, 0, 0, 0, 0⟩ :=
  (frequency_score_formula ⟨[⟨"note", 2, -(1/2)⟩], [], [], [], []⟩ 0 2 0
    (roundPlaces_zero 2)).2 rfl

/-- C3.  The `full` and `lex` shapes do not run the same computation in
v2.0.1: the `full` branch calls `doLex(matches, ints, places, encoding,
wordcount)` while the `lex` branch calls `doLex(matches, places,
encoding, wordcount)`, dropping the intercepts and shifting every later
argument — the two argument lists always differ.  In v1.0.0-rc.3
(src/unnamed/part_000) both branches pass identical arguments, so there
the `values` section of `full` equals the `lex`-shape scores. -/
theorem full_values_vs_lex_output :
    (∀ (ms : Ocean (List Match)) (places : Rat) (encoding : String)
        (wordcount : Rat),
        V201.fullDoLexArgs ms places encoding wordcount
          ≠ V201.lexDoLexArgs ms places encoding wordcount)
    ∧ ∀ (ms : Ocean (List Match)) (places : Nat) (encoding : String)
        (wordcount : Nat),
        RC3.fullValues ms places encoding wordcount
          = RC3.oceanOutput ms places encoding wordcount := by
  constructor
  · intro ms places encoding wordcount heq
    simp [V201.fullDoLexArgs, V201.lexDoLexArgs] at heq
  · intro ms places encoding wordcount
    rfl

/-- C5.  v2.0.1 appends the n-grams of window `n` only when
`2 < wordcount` and `n < wordcount` strictly; a window with
`n = wordcount` is skipped even though the baseline word count is not
less than `n`. -/
theorem ngram_window_strict_skip :
    ¬ (V201.addNGrams (fun _ => ["a b c"]) [3] 3 ["a", "b", "c"]
        = ["a", "b", "c"] ++ ["a b c"]) := by
  simp [V201.addNGrams]

/-- C5 (amended).  The appended windows are exactly those with
`n < wordcount`, and only when `wordcount > 2`; all other windows are
skipped, and with `wcGrams` unset the wordcount is unaffected by the
appended n-grams. -/
theorem ngram_window_closed_form (g : Nat → List String) (sizes : List Nat)
    (wc : Nat) (toks : List String) :
    (V201.addNGrams g sizes wc toks
      = if 2 < wc then
          toks ++ ((sizes.filter (fun n => decide (n < wc))).map g).flatten
        else toks)
    ∧ ∀ augmented : List String, V201.finalWordcount false wc augmented = wc := by
  constructor
  · unfold V201.addNGrams
    by_cases h2 : 2 < wc
    · simp only [if_pos h2]
      induction sizes generalizing toks with
      | nil => simp
      | cons n ns ih =>
        by_cases hn : n < wc <;>
          simp [List.filter_cons, hn, ih, List.append_assoc]
    · simp [h2]
  · intro augmented
    rfl

/-- C6.  An empty input string, a whitespace-only input string, and any
input on which the tokenizer signals "no tokens" all make the call
return `null`; the embedded pipeline is a total function, so no
exception can escape. -/
theorem empty_input_returns_null (tokenize : String → Option (List String))
    (rest : String → List String → Ocean Rat) (str : String) :
    V201.bigFiveTop tokenize rest "" = none
    ∧ (jsTrim (jsToLower str) = "" → tokenize "" = none →
        V201.bigFiveTop tokenize rest str = none)
    ∧ (tokenize (jsTrim (jsToLower str)) = none →
        V201.bigFiveTop tokenize rest str = none) := by
  refine ⟨rfl, ?_, ?_⟩
  · intro htrim htok
    unfold V201.bigFiveTop
    by_cases hs : str = ""
    · simp [hs]
    · simp only [if_neg hs, htrim, htok]
  · intro htok
    unfold V201.bigFiveTop
    by_cases hs : str = ""
    · simp [hs]
    · simp only [if_neg hs, htok]

/-- C6 witness: a whitespace-only input under a tokenizer that signals
"no tokens" on the empty string. -/
theorem empty_input_returns_null_witness :
    V201.bigFiveTop (fun s => if s = "" then none else some [s])
      (fun _ _ => ⟨0, 0, 0, 0, 0⟩) "   " = none :=
  (empty_input_returns_null (fun s => if s = "" then none else some [s])
    (fun _ _ => ⟨0, 0, 0, 0, 0⟩) "   ").2.1 rfl rfl

/-- Defaulting with `||`: a falsy (or absent) slot is replaced by the
default. -/
theorem jsOr_of_falsy {α : Type} (v : Option α) (falsy : α → Bool) (d : α)
    (h : optFalsy v falsy = true) : jsOr v falsy d = d := by
  cases v with
  | none => rfl
  | some x =>
    simp only [optFalsy] at h
    simp [jsOr, h]

/-- C4 counterexample.  With `min: 0` the options defaulting replaces the
bound by `-∞` (`0` is falsy), so a category holding only the
negative-weight term `gloom` still matches it and its binary score is
`-1`, not the intercept `0`. -/
theorem min_zero_filters_nothing :
    (V201.applyDefaults minZeroOpts).min = some XRat.negInf
    ∧ LexHelpers.getMatches ["gloom"] [("gloom", -1)] XRat.negInf XRat.posInf
        = [⟨"gloom", 1, -1⟩]
    ∧ LexHelpers.calcLex [⟨"gloom", 1, -1⟩] 0 9 "binary" 1 = -1 := by
  have hne : ("binary" : String) ≠ "frequency" := by decide
  refine ⟨?_, ?_, ?_⟩
  · simp [V201.applyDefaults, minZeroOpts, jsOr, numFalsy]
  · simp [LexHelpers.getMatches, LexHelpers.belowMin, LexHelpers.aboveMax]
  · norm_num [LexHelpers.calcLex, hne, roundPlaces, roundHalfAway]

/-- C4 (amended).  A nonzero `min: m` survives the options defaulting,
and with lower bound `m` every term of weight below `m` is excluded: a
category whose weights all lie below `m` produces an empty MatchSet and
its score equals the intercept (0). -/
theorem min_bound_filters_weights (o : Opts) (m : Rat) (tokens : List String)
    (data : Category) (max : XRat) (places wc : Nat) (enc : String)
    (hmin : o.min = some (XRat.fin m)) (hm : m ≠ 0)
    (hw : ∀ p ∈ data, p.2 < m) :
    (V201.applyDefaults o).min = some (XRat.fin m)
    ∧ LexHelpers.getMatches tokens data (XRat.fin m) max = []
    ∧ LexHelpers.calcLex [] 0 places enc wc = 0 := by
  refine ⟨?_, ?_, ?_⟩
  · simp [V201.applyDefaults, hmin, jsOr, numFalsy, hm]
  · have hgen : ∀ d : Category, (∀ p ∈ d, p.2 < m) →
        LexHelpers.getMatches tokens d (XRat.fin m) max = [] := by
      intro d
      induction d with
      | nil => intro _; rfl
      | cons p ps ih =>
        intro hall
        have hb : LexHelpers.belowMin (XRat.fin m) p.2 = true := by
          simp [LexHelpers.belowMin, hall p (by simp)]
        have hcond : (tokens.contains p.1
            && !LexHelpers.belowMin (XRat.fin m) p.2
            && !LexHelpers.aboveMax max p.2) = false := by
          simp [hb]
        unfold LexHelpers.getMatches at ih ⊢
        rw [List.filterMap_cons]
        simp only [hcond, Bool.false_eq_true, if_false]
        exact ih (fun q hq => hall q (by simp [hq]))
    exact hgen data hw
  · unfold LexHelpers.calcLex
    split_ifs <;> simp [roundPlaces_zero]

/-- C4 (amended) witness: `min: 1` against a single negative-weight
category. -/
theorem min_bound_filters_weights_witness :
    (V201.applyDefaults minOneOpts).min = some (XRat.fin 1)
    ∧ LexHelpers.getMatches ["x"] [("x", -1)] (XRat.fin 1) XRat.posInf = []
    ∧ LexHelpers.calcLex [] 0 2 "binary" 3 = 0 :=
  min_bound_filters_weights minOneOpts 1 ["x"] [("x", -1)] XRat.posInf 2 3
    "binary" rfl (by norm_num)
    (by
      rintro p hp
      simp only [List.mem_singleton] at hp
      subst hp
      norm_num)

/-- C9.  An explicitly falsy option value is replaced by the documented
default before use: `nGrams: false` becomes `[2, 3]` (v2.0.1) or `true`
(rc.3), `places: 0` becomes `9`, `min: 0` becomes `-∞`; consequently no
post-default configuration can carry `nGrams = false` or `places = 0`. -/
theorem falsy_option_defaults :
    (∀ o : Opts, o.nGrams = some (NGramsVal.bool false) →
        (V201.applyDefaults o).nGrams = some (NGramsVal.sizes [2, 3]))
    ∧ (∀ o : Opts, o.nGrams = some (NGramsVal.bool false) →
        (RC3.applyDefaults o).nGrams = some (NGramsVal.bool true))
    ∧ (∀ o : Opts, o.places = some 0 → (V201.applyDefaults o).places = some 9)
    ∧ (∀ o : Opts, o.min = some (XRat.fin 0) →
        (V201.applyDefaults o).min = some XRat.negInf)
    ∧ (∀ o : Opts, (V201.applyDefaults o).nGrams ≠ some (NGramsVal.bool false))
    ∧ (∀ o : Opts, (V201.applyDefaults o).places ≠ some 0) := by
  refine ⟨?_, ?_, ?_, ?_, ?_, ?_⟩
  · intro o h; simp [V201.applyDefaults, h, jsOr, ngFalsy]
  · intro o h; simp [RC3.applyDefaults, h, jsOr, ngFalsy]
  · intro o h; simp [V201.applyDefaults, h, jsOr, natFalsy]
  · intro o h; simp [V201.applyDefaults, h, jsOr, numFalsy]
  · intro o
    cases hng : o.nGrams with
    | none => simp [V201.applyDefaults, hng, jsOr]
    | some v =>
      cases v with
      | bool b =>
        cases b <;> simp [V201.applyDefaults, hng, jsOr, ngFalsy]
      | sizes l => simp [V201.applyDefaults, hng, jsOr, ngFalsy]
  · intro o
    cases hp : o.places with
    | none => simp [V201.applyDefaults, hp, jsOr]
    | some n =>
      rcases Nat.eq_zero_or_pos n with h0 | hpos
      · simp [V201.applyDefaults, hp, jsOr, natFalsy, h0]
      · simp [V201.applyDefaults, hp, jsOr, natFalsy,
          Nat.pos_iff_ne_zero.mp hpos]

/-- C9 witness: every falsy-able field set falsy at once. -/
theorem falsy_option_defaults_witness :
    (V201.applyDefaults falsyOpts).nGrams = some (NGramsVal.sizes [2, 3])
    ∧ (RC3.applyDefaults falsyOpts).nGrams = some (NGramsVal.bool true)
    ∧ (V201.applyDefaults falsyOpts).places = some 9
    ∧ (V201.applyDefaults falsyOpts).min = some XRat.negInf :=
  ⟨falsy_option_defaults.1 falsyOpts rfl,
   falsy_option_defaults.2.1 falsyOpts rfl,
   falsy_option_defaults.2.2.1 falsyOpts rfl,
   falsy_option_defaults.2.2.2.1 falsyOpts rfl⟩

/-- C10.  The defaulting assignments of v2.0.1 write through the
caller's options object: after the call, every absent-or-falsy field of
the caller's object holds its default value, so a caller object with an
absent field is not left unchanged. -/
theorem opts_mutated_in_place (o : Opts) :
    (optFalsy o.encoding strFalsy = true →
        (V201.applyDefaults o).encoding = some "binary")
    ∧ (optFalsy o.max numFalsy = true →
        (V201.applyDefaults o).max = some XRat.posInf)
    ∧ (optFalsy o.min numFalsy = true →
        (V201.applyDefaults o).min = some XRat.negInf)
    ∧ (optFalsy o.nGrams ngFalsy = true →
        (V201.applyDefaults o).nGrams = some (NGramsVal.sizes [2, 3]))
    ∧ (optFalsy o.output strFalsy = true →
        (V201.applyDefaults o).output = some "lex")
    ∧ (optFalsy o.places natFalsy = true →
        (V201.applyDefaults o).places = some 9)
    ∧ (optFalsy o.sortBy strFalsy = true →
        (V201.applyDefaults o).sortBy = some "freq")
    ∧ (optFalsy o.wcGrams (fun b => !b) = true →
        (V201.applyDefaults o).wcGrams = some false)
    ∧ (o.places = none → V201.applyDefaults o ≠ o) := by
  refine ⟨?_, ?_, ?_, ?_, ?_, ?_, ?_, ?_, ?_⟩
  · intro h; simp [V201.applyDefaults, jsOr_of_falsy _ _ _ h]
  · intro h; simp [V201.applyDefaults, jsOr_of_falsy _ _ _ h]
  · intro h; simp [V201.applyDefaults, jsOr_of_falsy _ _ _ h]
  · intro h; simp [V201.applyDefaults, jsOr_of_falsy _ _ _ h]
  · intro h; simp [V201.applyDefaults, jsOr_of_falsy _ _ _ h]
  · intro h; simp [V201.applyDefaults, jsOr_of_falsy _ _ _ h]
  · intro h; simp [V201.applyDefaults, jsOr_of_falsy _ _ _ h]
  · intro h; simp [V201.applyDefaults, jsOr_of_falsy _ _ _ h]
  · intro hp heq
    have hfield := congrArg Opts.places heq
    simp [V201.applyDefaults, hp] at hfield

/-- C10 witness: an all-absent caller object has every field filled with
its default and is observably changed. -/
theorem opts_mutated_in_place_witness :
    (V201.applyDefaults emptyOpts).encoding = some "binary"
    ∧ (V201.applyDefaults emptyOpts).max = some XRat.posInf
    ∧ (V201.applyDefaults emptyOpts).min = some XRat.negInf
    ∧ (V201.applyDefaults emptyOpts).nGrams = some (NGramsVal.sizes [2, 3])
    ∧ (V201.applyDefaults emptyOpts).output = some "lex"
    ∧ (V201.applyDefaults emptyOpts).places = some 9
    ∧ (V201.applyDefaults emptyOpts).sortBy = some "freq"
    ∧ (V201.applyDefaults emptyOpts).wcGrams = some false
    ∧ V201.applyDefaults emptyOpts ≠ emptyOpts :=
  ⟨(opts_mutated_in_place emptyOpts).1 rfl,
   (opts_mutated_in_place emptyOpts).2.1 rfl,
   (opts_mutated_in_place emptyOpts).2.2.1 rfl,
   (opts_mutated_in_place emptyOpts).2.2.2.1 rfl,
   (opts_mutated_in_place emptyOpts).2.2.2.2.1 rfl,
   (opts_mutated_in_place emptyOpts).2.2.2.2.2.1 rfl,
   (opts_mutated_in_place emptyOpts).2.2.2.2.2.2.1 rfl,
   (opts_mutated_in_place emptyOpts).2.2.2.2.2.2.2.1 rfl,
   (opts_mutated_in_place emptyOpts).2.2.2.2.2.2.2.2 rfl⟩

/- Scratch examples used while developing; the v0.3.0 scorer on the
spec §8 scenario lexicon. -/
example :
    V030.calcLex (V030.getMatchesCat
      ["the", "capital", "city", "has", "a", "capital", "note", "note", "note"]
      [("capital", -1), ("note", -(1/2))]) = -(3/2) := by
  simp [V030.calcLex, V030.getMatchesCat]; norm_num

example :
    V030.getMatchesCat ["capital", "capital", "note"]
      [("capital", -1), ("note", -(1/2))]
      = [⟨"capital", 2, -1⟩, ⟨"note", 1, -(1/2)⟩] := by
  simp [V030.getMatchesCat]

example : roundPlaces 2 (1/3) = 33/100 := by
  norm_num [roundPlaces, roundHalfAway]

example : roundPlaces 0 (-(5/2)) = -3 := by
  norm_num [roundPlaces, roundHalfAway]

end BigFive
